import Mathlib

/-!
Verification of the og-pilot-js client library (src/client.ts, src/jwt.ts,
src/config.ts, src/errors.ts) against its natural-language specification.

The TypeScript source is shallowly embedded: JS objects whose values are the
scalars used by this library become association lists over `JsValue`; JS
`undefined` is modelled as key absence (`Option` at lookup sites) and JS
`null` as `JsValue.null`; fallible code returns `Except`; platform builtins
(WebCrypto HMAC, fetch, JSON.parse) are parameters of the functions that use
them.  JS numbers are modelled as `Rat` where fractional values matter
(timeouts, `iat` inputs) and as `Int` for claim values (the library only ever
stores integral numbers it produced via `Math.floor`); NaN is outside the
model.
-/

namespace OgPilot

/-- Scalar JS values that can appear in a params / claims mapping
(spec section 3: "mapping from string keys to scalar/string values").
JS `undefined` is not a `JsValue`: an absent key models it. -/
inductive JsValue where
  | str (s : String)
  | num (n : Int)
  | bool (b : Bool)
  | null
deriving DecidableEq, Repr

/-- A JS object with insertion-ordered keys, as used for `params` and the
claims payload.  JS objects cannot hold duplicate keys; on duplicate-free
lists the operations below agree with JS property semantics. -/
abbrev Obj := List (String × JsValue)

/-- Property read `o[k]`: `none` models JS `undefined` (key absent). -/
def getField : Obj → String → Option JsValue
  | [], _ => none
  | (k', v') :: rest, k => if k' = k then some v' else getField rest k

/-- Property write `o[k] = v`: replaces in place if the key exists
(keeping its position, as JS does), else appends. -/
def setField : Obj → String → JsValue → Obj
  | [], k, v => [(k, v)]
  | (k', v') :: rest, k, v =>
      if k' = k then (k, v) :: rest else (k', v') :: setField rest k v

/-- JS `String(v)` for the values of this model. -/
def jsString : JsValue → String
  | .str s => s
  | .num n => toString n
  | .bool b => if b then "true" else "false"
  | .null => "null"

/-- The test `v === undefined || v === null` applied to a property read. -/
def isNullish : Option JsValue → Bool
  | none => true
  | some .null => true
  | some _ => false

/-- The test `v === undefined || v === null || String(v).length === 0`
used by `validatePayload` (client.ts lines 128, 132, 136). -/
def isMissingOrEmpty : Option JsValue → Bool
  | none => true
  | some .null => true
  | some v => jsString v = ""

/-- Lowercase hex digit, for JSON string escapes. -/
def hexChar (n : Nat) : Char :=
  if n < 10 then Char.ofNat (48 + n) else Char.ofNat (87 + n)

/-- JSON.stringify escaping of a single character inside a string literal. -/
def jsonEscapeChar (c : Char) : String :=
  if c = '"' then "\\\""
  else if c = '\\' then "\\\\"
  else if c = Char.ofNat 8 then "\\b"
  else if c = Char.ofNat 12 then "\\f"
  else if c = '\n' then "\\n"
  else if c = '\r' then "\\r"
  else if c = '\t' then "\\t"
  else if c.toNat < 32 then
    "\\u00" ++ String.singleton (hexChar (c.toNat / 16)) ++
      String.singleton (hexChar (c.toNat % 16))
  else String.singleton c

/-- JSON.stringify of a string value. -/
def jsonQuote (s : String) : String :=
  "\"" ++ String.join (s.data.map jsonEscapeChar) ++ "\""

/-- JSON.stringify of a scalar value. -/
def jsonStringifyValue : JsValue → String
  | .str s => jsonQuote s
  | .num n => toString n
  | .bool b => if b then "true" else "false"
  | .null => "null"

/-- JSON.stringify of an object, keys in insertion order
(JS preserves insertion order for string keys). -/
def jsonStringifyObj (o : Obj) : String :=
  "\x7b" ++
    String.intercalate ","
      (o.map fun kv => jsonQuote kv.1 ++ ":" ++ jsonStringifyValue kv.2) ++
    "\x7d"

/-- UTF-8 encoding of one character (TextEncoder semantics; Lean `Char` is a
unicode scalar value, so no surrogate cases arise). -/
def utf8EncodeChar (c : Char) : List Nat :=
  let n := c.toNat
  if n < 128 then [n]
  else if n < 2048 then [192 + n / 64, 128 + n % 64]
  else if n < 65536 then [224 + n / 4096, 128 + n / 64 % 64, 128 + n % 64]
  else [240 + n / 262144, 128 + n / 4096 % 64, 128 + n / 64 % 64, 128 + n % 64]

/-- The byte sequence produced by `new TextEncoder().encode(s)`. -/
def utf8Encode (s : String) : List Nat :=
  (s.data.map utf8EncodeChar).flatten

/-- The standard base64 alphabet used by `Buffer.toString("base64")` / `btoa`. -/
def base64StdAlphabet : List Char :=
  "ABCDEFGHIJKLMNOPQRSTUVWXYZabcdefghijklmnopqrstuvwxyz0123456789+/".data

/-- The base64url alphabet (RFC 4648 section 5). -/
def base64UrlAlphabet : List Char :=
  "ABCDEFGHIJKLMNOPQRSTUVWXYZabcdefghijklmnopqrstuvwxyz0123456789-_".data

/-- Index into the standard alphabet. -/
def b64StdChar (n : Nat) : Char := base64StdAlphabet.getD n 'A'

/-- Index into the url-safe alphabet. -/
def b64UrlChar (n : Nat) : Char := base64UrlAlphabet.getD n 'A'

/-- Standard base64 with `=` padding, three input bytes per four output
characters (jwt.ts `toBase64`). -/
def toBase64Chars : List Nat → List Char
  | [] => []
  | [b1] =>
      [b64StdChar (b1 / 4), b64StdChar (b1 % 4 * 16), '=', '=']
  | [b1, b2] =>
      [b64StdChar (b1 / 4), b64StdChar (b1 % 4 * 16 + b2 / 16),
       b64StdChar (b2 % 16 * 4), '=']
  | b1 :: b2 :: b3 :: rest =>
      b64StdChar (b1 / 4) :: b64StdChar (b1 % 4 * 16 + b2 / 16) ::
      b64StdChar (b2 % 16 * 4 + b3 / 64) :: b64StdChar (b3 % 64) ::
      toBase64Chars rest

/-- The string `toBase64(bytes)` (jwt.ts lines 26-41). -/
def toBase64 (bytes : List Nat) : String := ⟨toBase64Chars bytes⟩

/-- The character substitution of `.replace(/\+/g, "-").replace(/\//g, "_")`. -/
def mapUrlChar (c : Char) : Char :=
  if c = '+' then '-' else if c = '/' then '_' else c

/-- Removal of trailing `=` characters, modelling `.replace(/=+$/g, "")`. -/
def stripTrailingEq : List Char → List Char
  | [] => []
  | c :: rest =>
      match stripTrailingEq rest with
      | [] => if c = '=' then [] else [c]
      | r => c :: r

/-- The function `base64UrlEncodeBytes` (jwt.ts lines 43-45): standard base64
then `+`/`/` substitution and trailing-padding removal. -/
def base64UrlEncodeBytes (bytes : List Nat) : String :=
  ⟨stripTrailingEq ((toBase64 bytes).data.map mapUrlChar)⟩

/-- The function `base64UrlEncodeString` (jwt.ts lines 47-49). -/
def base64UrlEncodeString (value : String) : String :=
  base64UrlEncodeBytes (utf8Encode value)

/-- The fixed JWT header object `\x7b alg: "HS256", typ: "JWT" \x7d`
(jwt.ts line 79). -/
def jwtHeader : Obj := [("alg", .str "HS256"), ("typ", .str "JWT")]

/-- The function `signJwt` (jwt.ts lines 78-86).  The WebCrypto HMAC-SHA256
primitive is an external capability and is passed in as `hmac`, taking the
signing-input string and the secret to a byte sequence. -/
def signJwt (hmac : String → String → List Nat) (payload : Obj)
    (secret : String) : String :=
  let encodedHeader := base64UrlEncodeString (jsonStringifyObj jwtHeader)
  let encodedPayload := base64UrlEncodeString (jsonStringifyObj payload)
  let signingInput := encodedHeader ++ "." ++ encodedPayload
  signingInput ++ "." ++ base64UrlEncodeBytes (hmac signingInput secret)

/-- Direct base64url encoding with no padding, following the spec wording
("base64url-encodes ... with no padding"): a second definition to compare
`base64UrlEncodeBytes` against. -/
def base64UrlNoPadChars : List Nat → List Char
  | [] => []
  | [b1] =>
      [b64UrlChar (b1 / 4), b64UrlChar (b1 % 4 * 16)]
  | [b1, b2] =>
      [b64UrlChar (b1 / 4), b64UrlChar (b1 % 4 * 16 + b2 / 16),
       b64UrlChar (b2 % 16 * 4)]
  | b1 :: b2 :: b3 :: rest =>
      b64UrlChar (b1 / 4) :: b64UrlChar (b1 % 4 * 16 + b2 / 16) ::
      b64UrlChar (b2 % 16 * 4 + b3 / 64) :: b64UrlChar (b3 % 64) ::
      base64UrlNoPadChars rest

theorem base64StdAlphabet_length : base64StdAlphabet.length = 64 := rfl

theorem base64UrlAlphabet_length : base64UrlAlphabet.length = 64 := rfl

/-- The two `replace` substitutions turn each standard-alphabet character into
the url-alphabet character of the same index. -/
theorem mapUrl_b64StdChar (n : Nat) : mapUrlChar (b64StdChar n) = b64UrlChar n := by
  by_cases h : n < 64
  · interval_cases n <;> rfl
  · have h' : (64 : Nat) ≤ n := Nat.le_of_not_lt h
    rw [b64StdChar, b64UrlChar, List.getD_eq_default, List.getD_eq_default]
    · rfl
    · rw [base64UrlAlphabet_length]; exact h'
    · rw [base64StdAlphabet_length]; exact h'

/-- Url-alphabet characters are never the padding character. -/
theorem b64UrlChar_ne_pad (n : Nat) : b64UrlChar n ≠ '=' := by
  by_cases h : n < 64
  · interval_cases n <;> decide
  · have h' : (64 : Nat) ≤ n := Nat.le_of_not_lt h
    rw [b64UrlChar, List.getD_eq_default]
    · decide
    · rw [base64UrlAlphabet_length]; exact h'

/-- Url-alphabet characters are ASCII. -/
theorem b64UrlChar_ascii (n : Nat) : (b64UrlChar n).toNat < 128 := by
  by_cases h : n < 64
  · interval_cases n <;> decide
  · have h' : (64 : Nat) ≤ n := Nat.le_of_not_lt h
    rw [b64UrlChar, List.getD_eq_default]
    · decide
    · rw [base64UrlAlphabet_length]; exact h'

theorem stripTrailingEq_cons_ne (c : Char) (l : List Char) (h : c ≠ '=') :
    stripTrailingEq (c :: l) = c :: stripTrailingEq l := by
  cases h' : stripTrailingEq l with
  | nil => simp [stripTrailingEq, h', h]
  | cons a r => simp [stripTrailingEq, h']

theorem mapUrlChar_pad : mapUrlChar '=' = '=' := rfl

/-- The padded-then-stripped encoding of the source equals the direct
no-padding base64url encoding. -/
theorem stripTrailingEq_map_toBase64Chars (bytes : List Nat) :
    stripTrailingEq ((toBase64Chars bytes).map mapUrlChar) =
      base64UrlNoPadChars bytes := by
  induction bytes using toBase64Chars.induct with
  | case1 => rfl
  | case2 b1 =>
      simp only [toBase64Chars, List.map_cons, List.map_nil,
        mapUrl_b64StdChar, mapUrlChar_pad]
      rw [stripTrailingEq_cons_ne _ _ (b64UrlChar_ne_pad _),
        stripTrailingEq_cons_ne _ _ (b64UrlChar_ne_pad _)]
      rfl
  | case3 b1 b2 =>
      simp only [toBase64Chars, List.map_cons, List.map_nil,
        mapUrl_b64StdChar, mapUrlChar_pad]
      rw [stripTrailingEq_cons_ne _ _ (b64UrlChar_ne_pad _),
        stripTrailingEq_cons_ne _ _ (b64UrlChar_ne_pad _),
        stripTrailingEq_cons_ne _ _ (b64UrlChar_ne_pad _)]
      rfl
  | case4 b1 b2 b3 rest ih =>
      simp only [toBase64Chars, List.map_cons, mapUrl_b64StdChar]
      rw [stripTrailingEq_cons_ne _ _ (b64UrlChar_ne_pad _),
        stripTrailingEq_cons_ne _ _ (b64UrlChar_ne_pad _),
        stripTrailingEq_cons_ne _ _ (b64UrlChar_ne_pad _),
        stripTrailingEq_cons_ne _ _ (b64UrlChar_ne_pad _), ih]
      rfl

/-- The source's `base64UrlEncodeBytes` computes the direct no-padding
base64url encoding. -/
theorem base64UrlEncodeBytes_eq_noPad (bytes : List Nat) :
    base64UrlEncodeBytes bytes = String.mk (base64UrlNoPadChars bytes) := by
  rw [base64UrlEncodeBytes, toBase64]
  exact congrArg String.mk (stripTrailingEq_map_toBase64Chars bytes)

/-- Every character of the no-padding base64url encoding is ASCII. -/
theorem base64UrlNoPadChars_ascii (bytes : List Nat) :
    ∀ c ∈ base64UrlNoPadChars bytes, c.toNat < 128 := by
  induction bytes using base64UrlNoPadChars.induct with
  | case1 => intro c hc; simp [base64UrlNoPadChars] at hc
  | case2 b1 =>
      intro c hc
      simp only [base64UrlNoPadChars, List.mem_cons, List.not_mem_nil,
        or_false] at hc
      rcases hc with h | h <;> (subst h; exact b64UrlChar_ascii _)
  | case3 b1 b2 =>
      intro c hc
      simp only [base64UrlNoPadChars, List.mem_cons, List.not_mem_nil,
        or_false] at hc
      rcases hc with h | h | h <;> (subst h; exact b64UrlChar_ascii _)
  | case4 b1 b2 b3 rest ih =>
      intro c hc
      simp only [base64UrlNoPadChars, List.mem_cons] at hc
      rcases hc with h | h | h | h | h
      · subst h; exact b64UrlChar_ascii _
      · subst h; exact b64UrlChar_ascii _
      · subst h; exact b64UrlChar_ascii _
      · subst h; exact b64UrlChar_ascii _
      · exact ih c h

/-- The mutable configuration record (config.ts `Configuration`).  `apiKey`
and `domain` are `Option` because the fields are optional and mutable
(`undefined`/`null` collapse to `none`); the `fetch` transport override is
modelled as the transport parameter of `createImage`.  Timeouts are JS
numbers or absent. -/
structure Configuration where
  apiKey : Option String
  domain : Option String
  baseUrl : String
  openTimeoutMs : Option Rat
  readTimeoutMs : Option Rat
  stripExtensions : Bool
deriving DecidableEq, Repr

/-- The error taxonomy of errors.ts: `ConfigurationError`, `RequestError`
(with its optional HTTP status), and plain JS `Error` (used by the `title`
validation throw in client.ts line 137 and for unwrapped propagation). -/
inductive OgError where
  | configurationError (message : String)
  | requestError (message : String) (status : Option Nat)
  | jsError (message : String)
deriving DecidableEq, Repr

/-- The accessor `Client#apiKey` (client.ts lines 141-147). -/
def clientApiKey (c : Configuration) : Except OgError String :=
  match c.apiKey with
  | some k => .ok k
  | none => .error (.configurationError "OG Pilot API key is missing")

/-- The accessor `Client#domain` (client.ts lines 149-155). -/
def clientDomain (c : Configuration) : Except OgError String :=
  match c.domain with
  | some d => .ok d
  | none => .error (.configurationError "OG Pilot domain is missing")

/-- The accessor `Client#apiKeyPrefix` (client.ts lines 157-159):
`apiKey().slice(0, 8)`. -/
def clientApiKeyFirst8 (c : Configuration) : Except OgError String :=
  (clientApiKey c).map fun k => k.take 8

/-- The method `Client#totalTimeoutMs` (client.ts lines 161-172): `undefined`
when both components are `undefined`, else the sum with each non-number
component treated as 0. -/
def totalTimeoutMs (c : Configuration) : Option Rat :=
  match c.openTimeoutMs, c.readTimeoutMs with
  | none, none => none
  | o, r => some (o.getD 0 + r.getD 0)

/-- Whether `Client#request` arms the abort timer (client.ts lines 58-60):
`if (timeoutMs && timeoutMs > 0)` — a JS number is truthy iff nonzero. -/
def timerArmed (c : Configuration) : Bool :=
  match totalTimeoutMs c with
  | none => false
  | some t => (t != 0) && (decide (0 < t))

/-- The `iat` argument of `createImage`: a `Date` (whose `getTime()` is an
integer count of epoch milliseconds) or a JS number. -/
inductive IatInput where
  | date (millis : Int)
  | num (n : Rat)
deriving DecidableEq, Repr

/-- The function `normalizeIat` (client.ts lines 175-185). -/
def normalizeIat : IatInput → Int
  | .date millis => ⌊(millis : Rat) / 1000⌋
  | .num n => if n > 100000000000 then ⌊n / 1000⌋ else ⌊n⌋

/-- Rendering of `normalizeIat` in the claim's own words, to compare
`normalizeIat` against: a date input converts to floor(epoch-millis/1000);
a numeric input strictly greater than 100,000,000,000 converts to
floor(value/1000); any other numeric input converts to floor(value). -/
def normalizeIatSpec (i : IatInput) : Int :=
  match i with
  | .date millis => ⌊(millis : Rat) / 1000⌋
  | .num n =>
      if 100000000000 < n then ⌊n / 1000⌋
      else ⌊n⌋

/-- The `iat` statement of `buildPayload` (client.ts lines 111-113): the
normalized value is written only when the option was supplied
(non-nullish). -/
def applyIat (p : Obj) (iat : Option IatInput) : Obj :=
  match iat with
  | some i => setField p "iat" (.num (normalizeIat i))
  | none => p

/-- The `iss` defaulting statement of `buildPayload` (client.ts lines
115-117): only an `undefined` or `null` value is replaced by the
configuration domain. -/
def applyIss (c : Configuration) (p : Obj) : Except OgError Obj :=
  if isNullish (getField p "iss") then
    (clientDomain c).map fun d => setField p "iss" (.str d)
  else .ok p

/-- The `sub` defaulting statement of `buildPayload` (client.ts lines
119-121): only an `undefined` or `null` value is replaced by the first 8
characters of the API key. -/
def applySub (c : Configuration) (p : Obj) : Except OgError Obj :=
  if isNullish (getField p "sub") then
    (clientApiKeyFirst8 c).map fun pre => setField p "sub" (.str pre)
  else .ok p

/-- The method `Client#validatePayload` (client.ts lines 127-139). -/
def validatePayload (payload : Obj) : Except OgError Unit :=
  if isMissingOrEmpty (getField payload "iss") then
    .error (.configurationError "OG Pilot domain is missing")
  else if isMissingOrEmpty (getField payload "sub") then
    .error (.configurationError "OG Pilot API key prefix is missing")
  else if isMissingOrEmpty (getField payload "title") then
    .error (.jsError "OG Pilot title is required")
  else .ok ()

/-- The method `Client#buildPayload` (client.ts lines 108-125): shallow copy
of `params` (value copy here; the aliasing behaviour is studied separately on
the store model), `iat` normalization, `iss`/`sub` defaulting, then
validation. -/
def buildPayload (c : Configuration) (params : Obj) (iat : Option IatInput) :
    Except OgError Obj :=
  match applyIss c (applyIat params iat) with
  | .error e => .error e
  | .ok p1 =>
      match applySub c p1 with
      | .error e => .error e
      | .ok p2 =>
          match validatePayload p2 with
          | .error e => .error e
          | .ok _ => .ok p2

/-- The fixed endpoint path (client.ts line 11). -/
def endpointPath : String := "/api/v1/images"

/-- The request URL as constructed by `new URL(ENDPOINT_PATH, baseUrl)` plus
`searchParams.set("token", token)` (client.ts lines 103-104).  Because
`ENDPOINT_PATH` is an absolute path, WHATWG resolution keeps only the base's
origin and takes path and (empty) query from the reference; the record keeps
the configured base, the path, and the query pairs. -/
structure UrlModel where
  base : String
  path : String
  query : List (String × String)
deriving DecidableEq, Repr

/-- The string form of the URL (`url.toString()`), modelled abstractly as
origin-resolution of the base followed by path and serialized query; no
claim depends on its internal format. -/
def urlToString (u : UrlModel) : String :=
  u.base ++ u.path ++ "?" ++
    String.intercalate "&" (u.query.map fun kv => kv.1 ++ "=" ++ kv.2)

/-- The method `Client#buildUrl` (client.ts lines 100-106): build and
validate the payload, read the API key (argument evaluation of
`this.apiKey()` precedes the `signJwt` call), sign, then attach the token as
the sole query parameter. -/
def buildUrl (c : Configuration) (hmac : String → String → List Nat)
    (params : Obj) (iat : Option IatInput) : Except OgError UrlModel :=
  match buildPayload c params iat with
  | .error e => .error e
  | .ok payload =>
      match clientApiKey c with
      | .error e => .error e
      | .ok key =>
          .ok ⟨c.baseUrl, endpointPath, [("token", signJwt hmac payload key)]⟩

/-- A response as observed through the Fetch interface: its status, the
outcome of `response.text()` (which can reject), `headers.get("location")`
(`none` models JS `null`), and `response.url` (`none` models a stub without
the property). -/
structure FetchResponse where
  status : Nat
  bodyRead : Except String String
  location : Option String
  url : Option String
deriving Repr

/-- A value thrown inside the `try` block of `Client#request`, as
discriminated by its `catch` (client.ts lines 79-92): a `RequestError`
instance, an `Error` named `AbortError`, any other `Error`, or a non-`Error`
value. -/
inductive Thrown where
  | requestError (message : String) (status : Option Nat)
  | abortError (message : String)
  | otherError (message : String)
  | nonError
deriving DecidableEq, Repr

/-- The outcome of `await fetchImpl(...)`: a resolved response or a thrown
value (network failure, abort, or anything else the transport throws). -/
inductive FetchOutcome where
  | ok (resp : FetchResponse)
  | threw (t : Thrown)
deriving Repr

/-- The body text used in the status-error message: `await
response.text().catch(() => "")` (client.ts line 71). -/
def bodyTextOrEmpty (resp : FetchResponse) : String :=
  match resp.bodyRead with
  | .ok b => b
  | .error _ => ""

/-- The `try` block of `Client#request` (client.ts lines 62-78): a status
of at least 400 raises a `RequestError` carrying the status and the
best-effort body text; otherwise the response is returned. -/
def tryFetch (outcome : FetchOutcome) : Except Thrown FetchResponse :=
  match outcome with
  | .ok resp =>
      if 400 ≤ resp.status then
        .error (.requestError
          ("OG Pilot request failed with status " ++ toString resp.status ++
            ": " ++ bodyTextOrEmpty resp)
          (some resp.status))
      else .ok resp
  | .threw t => .error t

/-- The `catch` block of `Client#request` (client.ts lines 79-92):
`RequestError` passes through unchanged; an `AbortError` becomes the timeout
variant; other errors and non-errors are wrapped. -/
def catchClassify : Thrown → OgError
  | .requestError m s => .requestError m s
  | .abortError m => .requestError ("OG Pilot request timed out: " ++ m) none
  | .otherError m => .requestError ("OG Pilot request failed: " ++ m) none
  | .nonError => .requestError "OG Pilot request failed." none

/-- The method `Client#request` after the fetch resolved or threw: the `try`
body with its `catch` classification. -/
def requestClassify (outcome : FetchOutcome) : Except OgError FetchResponse :=
  match tryFetch outcome with
  | .ok resp => .ok resp
  | .error t => .error (catchClassify t)

/-- The options argument of `createImage` (client.ts lines 5-9, 24), with
the defaults applied by its destructuring.  `headers` only feeds the request
headers, which no modelled observation depends on. -/
structure CreateImageOptions where
  json : Bool := false
  iat : Option IatInput := none
  headers : List (String × String) := []

/-- The value `createImage` resolves to: a string (redirect target / URL) or
the result of `JSON.parse`. -/
inductive RetVal where
  | str (s : String)
  | jsonData (v : JsValue)
deriving DecidableEq, Repr

/-- One observed call: whether the transport was invoked, and the
resolution or rejection of the returned promise. -/
structure CallTrace where
  transportInvoked : Bool
  result : Except OgError RetVal
deriving Repr

/-- The part of `createImage` after `request` produced a response (client.ts
lines 28-33).  `JSON.parse` is a platform builtin passed in as `jsonParse`;
its failure, like a failing `response.text()` here, propagates unwrapped as
a plain error. -/
def finishResponse (jsonParse : String → Except String JsValue)
    (json : Bool) (url : UrlModel) (resp : FetchResponse) :
    Except OgError RetVal :=
  if json then
    match resp.bodyRead with
    | .error m => .error (.jsError m)
    | .ok body =>
        match jsonParse body with
        | .error m => .error (.jsError m)
        | .ok v => .ok (.jsonData v)
  else
    .ok (.str (resp.location.getD (resp.url.getD (urlToString url))))

/-- The method `Client#createImage` (client.ts lines 20-34): build the URL
(which signs the payload), run the transport through `request`'s
classification, then produce the result.  The transport function is invoked
exactly when `buildUrl` succeeded. -/
def createImage (c : Configuration) (hmac : String → String → List Nat)
    (jsonParse : String → Except String JsValue)
    (transport : UrlModel → FetchOutcome)
    (params : Obj) (opts : CreateImageOptions) : CallTrace :=
  match buildUrl c hmac params opts.iat with
  | .error e => ⟨false, .error e⟩
  | .ok url =>
      match requestClassify (transport url) with
      | .error e => ⟨true, .error e⟩
      | .ok resp => ⟨true, finishResponse jsonParse opts.json url resp⟩

/-!
Store model of object mutation.  JS objects are references into a heap;
`buildPayload` starts from `const payload = \x7b ...params \x7d` (a fresh
shallow copy) and then mutates only that fresh object.  To settle the
frame claim, the same statements are re-traced over an explicit store of
objects, with references as indices.
-/

/-- An object reference. -/
abbrev Ref := Nat

/-- The heap of live objects. -/
abbrev Store := List Obj

/-- Allocation of a new object, returning its reference. -/
def alloc (s : Store) (o : Obj) : Store × Ref := (s ++ [o], s.length)

/-- Dereference (invalid references never arise in the modelled runs). -/
def readObj (s : Store) (r : Ref) : Obj := s.getD r []

/-- In-place property write on the object behind `r`. -/
def writeField (s : Store) (r : Ref) (k : String) (v : JsValue) : Store :=
  s.set r (setField (readObj s r) k v)

/-- Store version of the `iat` statement: mutates the payload object. -/
def applyIatS (s : Store) (pr : Ref) (iat : Option IatInput) : Store :=
  match iat with
  | some i => writeField s pr "iat" (.num (normalizeIat i))
  | none => s

/-- Store version of the `iss` defaulting statement. -/
def applyIssS (c : Configuration) (s : Store) (pr : Ref) :
    Store × Except OgError Unit :=
  if isNullish (getField (readObj s pr) "iss") then
    match clientDomain c with
    | .error e => (s, .error e)
    | .ok d => (writeField s pr "iss" (.str d), .ok ())
  else (s, .ok ())

/-- Store version of the `sub` defaulting statement. -/
def applySubS (c : Configuration) (s : Store) (pr : Ref) :
    Store × Except OgError Unit :=
  if isNullish (getField (readObj s pr) "sub") then
    match clientApiKeyFirst8 c with
    | .error e => (s, .error e)
    | .ok pre => (writeField s pr "sub" (.str pre), .ok ())
  else (s, .ok ())

/-- Store version of `Client#buildPayload`: the shallow copy `\x7b ...params
\x7d` allocates a fresh object, and every subsequent write targets that
object.  The store is returned on every path, including throws, so mutation
can be observed on error paths too. -/
def buildPayloadS (c : Configuration) (s : Store) (paramsRef : Ref)
    (iat : Option IatInput) : Store × Except OgError Ref :=
  let (s1, pr) := alloc s (readObj s paramsRef)
  let s2 := applyIatS s1 pr iat
  match applyIssS c s2 pr with
  | (s3, .error e) => (s3, .error e)
  | (s3, .ok _) =>
      match applySubS c s3 pr with
      | (s4, .error e) => (s4, .error e)
      | (s4, .ok _) =>
          match validatePayload (readObj s4 pr) with
          | .error e => (s4, .error e)
          | .ok _ => (s4, .ok pr)

/-- Store version of `Client#buildUrl`; nothing after `buildPayload` touches
the store. -/
def buildUrlS (c : Configuration) (hmac : String → String → List Nat)
    (s : Store) (paramsRef : Ref) (iat : Option IatInput) :
    Store × Except OgError UrlModel :=
  match buildPayloadS c s paramsRef iat with
  | (s', .error e) => (s', .error e)
  | (s', .ok pr) =>
      match clientApiKey c with
      | .error e => (s', .error e)
      | .ok key =>
          (s', .ok ⟨c.baseUrl, endpointPath,
            [("token", signJwt hmac (readObj s' pr) key)]⟩)

/-- Store version of `Client#createImage`: the transport and response
handling never touch the store of params objects. -/
def createImageS (c : Configuration) (hmac : String → String → List Nat)
    (jsonParse : String → Except String JsValue)
    (transport : UrlModel → FetchOutcome)
    (s : Store) (paramsRef : Ref) (opts : CreateImageOptions) :
    Store × CallTrace :=
  match buildUrlS c hmac s paramsRef opts.iat with
  | (s', .error e) => (s', ⟨false, .error e⟩)
  | (s', .ok url) =>
      match requestClassify (transport url) with
      | .error e => (s', ⟨true, .error e⟩)
      | .ok resp => (s', ⟨true, finishResponse jsonParse opts.json url resp⟩)

/-!
Shared lemmas about the object and store operations.
-/

theorem getField_setField_self (o : Obj) (k : String) (v : JsValue) :
    getField (setField o k v) k = some v := by
  induction o with
  | nil => simp [setField, getField]
  | cons kv rest ih =>
      obtain ⟨k', v'⟩ := kv
      by_cases h : k' = k
      · simp [setField, getField, h]
      · simp [setField, getField, h, ih]

theorem getField_setField_ne (o : Obj) (k k' : String) (v : JsValue)
    (h : k ≠ k') : getField (setField o k v) k' = getField o k' := by
  induction o with
  | nil => simp [setField, getField, h]
  | cons kv rest ih =>
      obtain ⟨k0, v0⟩ := kv
      by_cases h0 : k0 = k
      · simp [setField, getField, h0, h]
      · simp only [setField, if_neg h0, getField]
        by_cases h1 : k0 = k'
        · simp [h1]
        · simp [h1, ih]

theorem getField_applyIat (p : Obj) (iat : Option IatInput) (k : String)
    (h : k ≠ "iat") : getField (applyIat p iat) k = getField p k := by
  cases iat with
  | none => rfl
  | some i => exact getField_setField_ne _ _ _ _ (fun he => h he.symm)

theorem readObj_append_lt (s : Store) (o : Obj) (r : Ref) (h : r < s.length) :
    readObj (s ++ [o]) r = readObj s r :=
  List.getD_append _ _ _ _ h

theorem readObj_set_ne (s : Store) (i : Nat) (o : Obj) (r : Ref) (h : i ≠ r) :
    readObj (s.set i o) r = readObj s r := by
  unfold readObj
  rw [List.getD_eq_getElem?_getD, List.getD_eq_getElem?_getD,
    List.getElem?_set_ne h]

theorem readObj_writeField_ne (s : Store) (pr : Ref) (k : String) (v : JsValue)
    (r : Ref) (h : pr ≠ r) :
    readObj (writeField s pr k v) r = readObj s r :=
  readObj_set_ne _ _ _ _ h

theorem applyIatS_frame (s : Store) (pr : Ref) (iat : Option IatInput)
    (r : Ref) (h : pr ≠ r) : readObj (applyIatS s pr iat) r = readObj s r := by
  cases iat with
  | none => rfl
  | some i => exact readObj_writeField_ne _ _ _ _ _ h

theorem applyIssS_frame (c : Configuration) (s : Store) (pr : Ref) (r : Ref)
    (h : pr ≠ r) : readObj (applyIssS c s pr).1 r = readObj s r := by
  unfold applyIssS
  by_cases h1 : isNullish (getField (readObj s pr) "iss") = true
  · rw [if_pos h1]
    cases clientDomain c with
    | error e => rfl
    | ok d => exact readObj_writeField_ne _ _ _ _ _ h
  · rw [if_neg h1]

theorem applySubS_frame (c : Configuration) (s : Store) (pr : Ref) (r : Ref)
    (h : pr ≠ r) : readObj (applySubS c s pr).1 r = readObj s r := by
  unfold applySubS
  by_cases h1 : isNullish (getField (readObj s pr) "sub") = true
  · rw [if_pos h1]
    cases clientApiKeyFirst8 c with
    | error e => rfl
    | ok d => exact readObj_writeField_ne _ _ _ _ _ h
  · rw [if_neg h1]

theorem buildPayloadS_frame (c : Configuration) (s : Store) (paramsRef : Ref)
    (iat : Option IatInput) (r : Ref) (h : r < s.length) :
    readObj (buildPayloadS c s paramsRef iat).1 r = readObj s r := by
  have hne : s.length ≠ r := Nat.ne_of_gt h
  have h1 : readObj (s ++ [readObj s paramsRef]) r = readObj s r :=
    readObj_append_lt _ _ _ h
  unfold buildPayloadS alloc
  simp only
  have h2 :
      readObj (applyIatS (s ++ [readObj s paramsRef]) s.length iat) r =
        readObj s r := by
    rw [applyIatS_frame _ _ _ _ hne, h1]
  set s2 := applyIatS (s ++ [readObj s paramsRef]) s.length iat with hs2
  rcases h3 : applyIssS c s2 s.length with ⟨s3, r3⟩
  have hs3 : readObj s3 r = readObj s r := by
    have h' := applyIssS_frame c s2 s.length r hne
    rw [h3] at h'
    exact h'.trans h2
  cases r3 with
  | error e => simpa using hs3
  | ok u =>
      simp only
      rcases h4 : applySubS c s3 s.length with ⟨s4, r4⟩
      have hs4 : readObj s4 r = readObj s r := by
        have h' := applySubS_frame c s3 s.length r hne
        rw [h4] at h'
        exact h'.trans hs3
      cases r4 with
      | error e => simpa using hs4
      | ok u' =>
          simp only
          cases validatePayload (readObj s4 s.length) with
          | error e => simpa using hs4
          | ok u'' => simpa using hs4

theorem buildUrlS_fst (c : Configuration) (hmac : String → String → List Nat)
    (s : Store) (r : Ref) (iat : Option IatInput) :
    (buildUrlS c hmac s r iat).1 = (buildPayloadS c s r iat).1 := by
  unfold buildUrlS
  rcases buildPayloadS c s r iat with ⟨s', res⟩
  cases res with
  | error e => rfl
  | ok pr =>
      cases clientApiKey c with
      | error e => rfl
      | ok key => rfl

theorem createImageS_fst (c : Configuration)
    (hmac : String → String → List Nat)
    (jsonParse : String → Except String JsValue)
    (transport : UrlModel → FetchOutcome)
    (s : Store) (r : Ref) (opts : CreateImageOptions) :
    (createImageS c hmac jsonParse transport s r opts).1 =
      (buildPayloadS c s r opts.iat).1 := by
  unfold createImageS
  rcases hbu : buildUrlS c hmac s r opts.iat with ⟨s', res⟩
  have hs' : s' = (buildPayloadS c s r opts.iat).1 := by
    rw [← buildUrlS_fst c hmac s r opts.iat, hbu]
  cases res with
  | error e => exact hs'
  | ok url =>
      dsimp only
      cases requestClassify (transport url) with
      | error e => exact hs'
      | ok resp => exact hs'

/-!
Inversion lemmas for the payload-building stages.
-/

theorem applyIss_ok_inv (c : Configuration) (p p1 : Obj)
    (h : applyIss c p = Except.ok p1) :
    (isNullish (getField p "iss") = false ∧ p1 = p) ∨
    (isNullish (getField p "iss") = true ∧
      ∃ d, c.domain = some d ∧ p1 = setField p "iss" (.str d)) := by
  unfold applyIss at h
  by_cases hn : isNullish (getField p "iss") = true
  · rw [if_pos hn] at h
    cases hd : c.domain with
    | none => simp [clientDomain, hd, Except.map] at h
    | some d =>
        right
        refine ⟨hn, d, rfl, ?_⟩
        simp [clientDomain, hd, Except.map] at h
        exact h.symm
  · rw [if_neg hn] at h
    left
    refine ⟨Bool.not_eq_true _ ▸ hn, ?_⟩
    injection h with h'
    exact h'.symm

theorem applyIss_error_inv (c : Configuration) (p : Obj) (e : OgError)
    (h : applyIss c p = Except.error e) :
    e = .configurationError "OG Pilot domain is missing" := by
  unfold applyIss at h
  by_cases hn : isNullish (getField p "iss") = true
  · rw [if_pos hn] at h
    cases hd : c.domain with
    | none =>
        simp only [clientDomain, hd, Except.map] at h
        injection h with h'
        exact h'.symm
    | some d => simp [clientDomain, hd, Except.map] at h
  · rw [if_neg hn] at h
    simp at h

theorem applySub_ok_inv (c : Configuration) (p p1 : Obj)
    (h : applySub c p = Except.ok p1) :
    (isNullish (getField p "sub") = false ∧ p1 = p) ∨
    (isNullish (getField p "sub") = true ∧
      ∃ k, c.apiKey = some k ∧ p1 = setField p "sub" (.str (k.take 8))) := by
  unfold applySub at h
  by_cases hn : isNullish (getField p "sub") = true
  · rw [if_pos hn] at h
    cases hk : c.apiKey with
    | none => simp [clientApiKeyFirst8, clientApiKey, hk, Except.map] at h
    | some k =>
        right
        refine ⟨hn, k, rfl, ?_⟩
        simp [clientApiKeyFirst8, clientApiKey, hk, Except.map] at h
        exact h.symm
  · rw [if_neg hn] at h
    left
    refine ⟨Bool.not_eq_true _ ▸ hn, ?_⟩
    injection h with h'
    exact h'.symm

theorem applySub_error_inv (c : Configuration) (p : Obj) (e : OgError)
    (h : applySub c p = Except.error e) :
    e = .configurationError "OG Pilot API key is missing" := by
  unfold applySub at h
  by_cases hn : isNullish (getField p "sub") = true
  · rw [if_pos hn] at h
    cases hk : c.apiKey with
    | none =>
        simp only [clientApiKeyFirst8, clientApiKey, hk, Except.map] at h
        injection h with h'
        exact h'.symm
    | some k => simp [clientApiKeyFirst8, clientApiKey, hk, Except.map] at h
  · rw [if_neg hn] at h
    simp at h

theorem validatePayload_error_inv (p : Obj) (e : OgError)
    (ht : isMissingOrEmpty (getField p "title") = false)
    (h : validatePayload p = Except.error e) :
    ∃ m, e = .configurationError m := by
  unfold validatePayload at h
  by_cases hi : isMissingOrEmpty (getField p "iss") = true
  · rw [if_pos hi] at h
    injection h with h'
    exact ⟨_, h'.symm⟩
  · rw [if_neg hi] at h
    by_cases hs : isMissingOrEmpty (getField p "sub") = true
    · rw [if_pos hs] at h
      injection h with h'
      exact ⟨_, h'.symm⟩
    · rw [if_neg hs, ht] at h
      simp at h

theorem buildPayload_ok_inv (c : Configuration) (params : Obj)
    (iat : Option IatInput) (p : Obj)
    (h : buildPayload c params iat = Except.ok p) :
    ∃ p1, applyIss c (applyIat params iat) = .ok p1 ∧
      applySub c p1 = .ok p ∧ validatePayload p = .ok () := by
  unfold buildPayload at h
  split at h
  next e h1 => simp at h
  next p1 h1 =>
    split at h
    next e h2 => simp at h
    next p2 h2 =>
      split at h
      next e h3 => simp at h
      next u h3 =>
        injection h with h'
        subst h'
        cases u
        exact ⟨p1, h1, h2, h3⟩

theorem getField_title_preserved (c : Configuration) (params : Obj)
    (iat : Option IatInput) (p1 p2 : Obj)
    (h1 : applyIss c (applyIat params iat) = .ok p1)
    (h2 : applySub c p1 = .ok p2) :
    getField p2 "title" = getField params "title" := by
  have e0 : getField (applyIat params iat) "title" = getField params "title" :=
    getField_applyIat _ _ _ (by decide)
  have e1 : getField p1 "title" = getField params "title" := by
    rcases applyIss_ok_inv _ _ _ h1 with ⟨-, rfl⟩ | ⟨-, d, -, rfl⟩
    · exact e0
    · rw [getField_setField_ne _ _ _ _ (by decide)]
      exact e0
  rcases applySub_ok_inv _ _ _ h2 with ⟨-, rfl⟩ | ⟨-, k, -, rfl⟩
  · exact e1
  · rw [getField_setField_ne _ _ _ _ (by decide)]
    exact e1

/-!
Claim theorems.
-/

/-- A trivial HMAC stand-in for concrete evaluations. -/
def hmacStub : String → String → List Nat := fun _ _ => []

/-- A JSON.parse stand-in for concrete evaluations. -/
def jsonParseStub : String → Except String JsValue := fun _ => .error "parse"

/-- A transport stand-in for concrete evaluations. -/
def transportStub : UrlModel → FetchOutcome := fun _ => .threw .nonError

/-- A fully-populated configuration used by counterexamples. -/
def issuerConfig : Configuration :=
  ⟨some "secret-key-1", some "example.com", "https://ogpilot.com",
    some 5000, some 10000, true⟩

/-- Params whose `iss` is the EMPTY string (with `sub` and `title` fine). -/
def emptyIssParams : Obj :=
  [("iss", .str ""), ("sub", .str "subj"), ("title", .str "x")]

/-- C1 counterexample: with a caller-supplied EMPTY-string `iss` and the
issuer present in configuration, the defaulting statement leaves `iss` as
`""` instead of setting it from the configuration issuer (the code defaults
only `undefined`/`null`, client.ts line 115), and `buildPayload` then
rejects with a configuration error — no claims mapping with the
configuration issuer is ever built, refuting the "absent or empty" clause
of the claim. -/
theorem iss_empty_not_defaulted :
    applyIss issuerConfig (applyIat emptyIssParams none) =
        Except.ok emptyIssParams
    ∧ getField emptyIssParams "iss" = some (.str "")
    ∧ issuerConfig.domain = some "example.com"
    ∧ buildPayload issuerConfig emptyIssParams none =
        Except.error (.configurationError "OG Pilot domain is missing") :=
  ⟨rfl, rfl, rfl, rfl⟩

/-- C1 (amended): in every successfully built claims mapping, `iss` is set
from the configuration issuer exactly when the caller value was absent or
`null` (an empty string passes through unchanged and then fails
validation), and `sub` is set to the first 8 characters of the secret
exactly when the caller value was absent or `null`; non-nullish
caller-supplied values pass through unchanged. -/
theorem payload_defaulting (c : Configuration) (params : Obj)
    (iat : Option IatInput) (p : Obj)
    (h : buildPayload c params iat = Except.ok p) :
    (isNullish (getField params "iss") = true →
      ∃ d, c.domain = some d ∧ getField p "iss" = some (.str d))
    ∧ (isNullish (getField params "iss") = false →
        getField p "iss" = getField params "iss")
    ∧ (isNullish (getField params "sub") = true →
      ∃ k, c.apiKey = some k ∧ getField p "sub" = some (.str (k.take 8)))
    ∧ (isNullish (getField params "sub") = false →
        getField p "sub" = getField params "sub") := by
  obtain ⟨p1, h1, h2, -⟩ := buildPayload_ok_inv c params iat p h
  have gi0 : getField (applyIat params iat) "iss" = getField params "iss" :=
    getField_applyIat _ _ _ (by decide)
  have gs0 : getField (applyIat params iat) "sub" = getField params "sub" :=
    getField_applyIat _ _ _ (by decide)
  rcases applyIss_ok_inv _ _ _ h1 with ⟨hn1, rfl⟩ | ⟨hn1, d, hd, rfl⟩
  · rw [gi0] at hn1
    rcases applySub_ok_inv _ _ _ h2 with ⟨hn2, rfl⟩ | ⟨hn2, k, hk, rfl⟩
    · rw [gs0] at hn2
      refine ⟨?_, fun _ => gi0, ?_, fun _ => gs0⟩
      · intro hT; rw [hn1] at hT; exact Bool.noConfusion hT
      · intro hT; rw [hn2] at hT; exact Bool.noConfusion hT
    · rw [gs0] at hn2
      refine ⟨?_, ?_, ?_, ?_⟩
      · intro hT; rw [hn1] at hT; exact Bool.noConfusion hT
      · intro _
        rw [getField_setField_ne _ _ _ _ (by decide)]
        exact gi0
      · intro _
        exact ⟨k, hk, getField_setField_self _ _ _⟩
      · intro hF; rw [hn2] at hF; exact Bool.noConfusion hF
  · rw [gi0] at hn1
    rcases applySub_ok_inv _ _ _ h2 with ⟨hn2, rfl⟩ | ⟨hn2, k, hk, rfl⟩
    · rw [getField_setField_ne _ _ _ _ (by decide), gs0] at hn2
      refine ⟨?_, ?_, ?_, fun _ => ?_⟩
      · intro _
        exact ⟨d, hd, getField_setField_self _ _ _⟩
      · intro hF; rw [hn1] at hF; exact Bool.noConfusion hF
      · intro hT; rw [hn2] at hT; exact Bool.noConfusion hT
      · rw [getField_setField_ne _ _ _ _ (by decide)]
        exact gs0
    · rw [getField_setField_ne _ _ _ _ (by decide), gs0] at hn2
      refine ⟨?_, ?_, ?_, ?_⟩
      · intro _
        refine ⟨d, hd, ?_⟩
        rw [getField_setField_ne _ _ _ _ (by decide)]
        exact getField_setField_self _ _ _
      · intro hF; rw [hn1] at hF; exact Bool.noConfusion hF
      · intro _
        exact ⟨k, hk, getField_setField_self _ _ _⟩
      · intro hF; rw [hn2] at hF; exact Bool.noConfusion hF

/-- A configuration populated like a test fixture, for witnesses. -/
def witConfig : Configuration :=
  ⟨some "secretkey0123", some "example.com", "https://ogpilot.com",
    some 5000, some 10000, true⟩

/-- Params with only a title. -/
def witParams : Obj := [("title", .str "x")]

/-- The payload `buildPayload` produces from `witConfig` and `witParams`. -/
def witPayload : Obj :=
  [("title", .str "x"), ("iss", .str "example.com"),
   ("sub", .str "secretke")]

/-- C1 witness: at a concrete configuration and title-only params, the
defaulting theorem yields `iss = "example.com"` and
`sub = "secretke"` (first 8 characters of "secretkey0123"). -/
theorem payload_defaulting_witness :
    getField witPayload "iss" = some (.str "example.com")
    ∧ getField witPayload "sub" = some (.str "secretke") := by
  obtain ⟨hiss, -, hsub, -⟩ :=
    payload_defaulting witConfig witParams none witPayload rfl
  obtain ⟨d, hd, hgiss⟩ := hiss rfl
  obtain ⟨k, hk, hgsub⟩ := hsub rfl
  have hd' : d = "example.com" := by
    have h' : (some "example.com" : Option String) = some d := hd
    injection h' with h''
    exact h''.symm
  have hk' : k = "secretkey0123" := by
    have h' : (some "secretkey0123" : Option String) = some k := hk
    injection h' with h''
    exact h''.symm
  subst hd'
  subst hk'
  exact ⟨hgiss, hgsub⟩

/-- Params with an empty `iss` and no title at all. -/
def noTitleParams : Obj := [("iss", .str "")]

/-- C4 counterexample: `title` is absent, yet `createImage` rejects with a
CONFIGURATION-class error (the empty `iss` fails the issuer check first,
client.ts line 128), not the validation-class title error the claim
promises for every such params mapping.  The transport is still never
invoked. -/
theorem missing_title_claim_false :
    isMissingOrEmpty (getField noTitleParams "title") = true
    ∧ (createImage issuerConfig hmacStub jsonParseStub transportStub
        noTitleParams {}).result =
      Except.error (.configurationError "OG Pilot domain is missing")
    ∧ (createImage issuerConfig hmacStub jsonParseStub transportStub
        noTitleParams {}).transportInvoked = false :=
  ⟨rfl, rfl, rfl⟩

/-- C4 (amended): when `title` is absent, `null` or empty, `createImage`
always fails before the transport is invoked; the failure is the
validation-class title error whenever the issuer/subject defaulting
succeeds and both resolve non-empty, and a configuration-class error
otherwise. -/
theorem missing_title_never_calls_transport
    (c : Configuration) (hmac : String → String → List Nat)
    (jsonParse : String → Except String JsValue)
    (transport : UrlModel → FetchOutcome) (params : Obj)
    (opts : CreateImageOptions)
    (h : isMissingOrEmpty (getField params "title") = true) :
    (createImage c hmac jsonParse transport params opts).transportInvoked
        = false
    ∧ (∃ e, (createImage c hmac jsonParse transport params opts).result =
        Except.error e)
    ∧ (∀ p1 p2, applyIss c (applyIat params opts.iat) = .ok p1 →
        applySub c p1 = .ok p2 →
        isMissingOrEmpty (getField p2 "iss") = false →
        isMissingOrEmpty (getField p2 "sub") = false →
        (createImage c hmac jsonParse transport params opts).result =
          Except.error (.jsError "OG Pilot title is required"))
    ∧ ((¬ ∃ p1 p2, applyIss c (applyIat params opts.iat) = Except.ok p1 ∧
          applySub c p1 = Except.ok p2 ∧
          isMissingOrEmpty (getField p2 "iss") = false ∧
          isMissingOrEmpty (getField p2 "sub") = false) →
        ∃ m, (createImage c hmac jsonParse transport params opts).result =
          Except.error (.configurationError m)) := by
  cases hb : buildPayload c params opts.iat with
  | ok p =>
      exfalso
      obtain ⟨p1, h1, h2, h3⟩ := buildPayload_ok_inv _ _ _ _ hb
      have ht : getField p "title" = getField params "title" :=
        getField_title_preserved _ _ _ _ _ h1 h2
      unfold validatePayload at h3
      by_cases hi : isMissingOrEmpty (getField p "iss") = true
      · rw [if_pos hi] at h3; simp at h3
      · rw [if_neg hi] at h3
        by_cases hs : isMissingOrEmpty (getField p "sub") = true
        · rw [if_pos hs] at h3; simp at h3
        · rw [if_neg hs, ht, if_pos h] at h3; simp at h3
  | error e =>
      have hred : createImage c hmac jsonParse transport params opts =
          ⟨false, Except.error e⟩ := by
        unfold createImage buildUrl
        rw [hb]
      have hchar :
          (∀ p1 p2, applyIss c (applyIat params opts.iat) = Except.ok p1 →
            applySub c p1 = Except.ok p2 →
            isMissingOrEmpty (getField p2 "iss") = false →
            isMissingOrEmpty (getField p2 "sub") = false →
            e = .jsError "OG Pilot title is required")
          ∧ ((¬ ∃ p1 p2,
                applyIss c (applyIat params opts.iat) = Except.ok p1 ∧
                applySub c p1 = Except.ok p2 ∧
                isMissingOrEmpty (getField p2 "iss") = false ∧
                isMissingOrEmpty (getField p2 "sub") = false) →
              ∃ m, e = .configurationError m) := by
        unfold buildPayload at hb
        split at hb
        next e1 h1 =>
          injection hb with h'
          subst h'
          constructor
          · intro q1 q2 hq1 hq2 _ _
            rw [h1] at hq1
            simp at hq1
          · intro _
            exact ⟨_, applyIss_error_inv _ _ _ h1⟩
        next p1 h1 =>
          split at hb
          next e2 h2 =>
            injection hb with h'
            subst h'
            constructor
            · intro q1 q2 hq1 hq2 _ _
              rw [h1] at hq1
              injection hq1 with hq1'
              subst hq1'
              rw [h2] at hq2
              simp at hq2
            · intro _
              exact ⟨_, applySub_error_inv _ _ _ h2⟩
          next p2 h2 =>
            split at hb
            next e3 h3 =>
              injection hb with h'
              subst h'
              have htp : getField p2 "title" = getField params "title" :=
                getField_title_preserved _ _ _ _ _ h1 h2
              unfold validatePayload at h3
              by_cases hi : isMissingOrEmpty (getField p2 "iss") = true
              · rw [if_pos hi] at h3
                injection h3 with h''
                constructor
                · intro q1 q2 hq1 hq2 hio hso
                  rw [h1] at hq1
                  injection hq1 with hq1'
                  subst hq1'
                  rw [h2] at hq2
                  injection hq2 with hq2'
                  subst hq2'
                  rw [hi] at hio
                  exact Bool.noConfusion hio
                · intro _
                  exact ⟨_, h''.symm⟩
              · rw [if_neg hi] at h3
                by_cases hs : isMissingOrEmpty (getField p2 "sub") = true
                · rw [if_pos hs] at h3
                  injection h3 with h''
                  constructor
                  · intro q1 q2 hq1 hq2 hio hso
                    rw [h1] at hq1
                    injection hq1 with hq1'
                    subst hq1'
                    rw [h2] at hq2
                    injection hq2 with hq2'
                    subst hq2'
                    rw [hs] at hso
                    exact Bool.noConfusion hso
                  · intro _
                    exact ⟨_, h''.symm⟩
                · rw [if_neg hs, htp, if_pos h] at h3
                  injection h3 with h''
                  constructor
                  · intro _ _ _ _ _ _
                    exact h''.symm
                  · intro hno
                    exfalso
                    exact hno ⟨p1, p2, h1, h2,
                      Bool.not_eq_true _ ▸ hi, Bool.not_eq_true _ ▸ hs⟩
            next u h3 => simp at hb
      refine ⟨by rw [hred], ⟨e, by rw [hred]⟩, ?_, ?_⟩
      · intro p1 p2 hp1 hp2 hio hso
        rw [hred]
        exact congrArg Except.error (hchar.1 p1 p2 hp1 hp2 hio hso)
      · intro hno
        obtain ⟨m, hm⟩ := hchar.2 hno
        exact ⟨m, by rw [hred, hm]⟩

/-- C4 witness: with a populated configuration and empty params (so `iss`
and `sub` default successfully), the missing-title call fails with the
validation-class title error and never invokes the transport; and at
params with an empty `iss` (so issuer resolution fails), the
otherwise-branch yields a configuration-class error. -/
theorem missing_title_witness :
    (createImage witConfig hmacStub jsonParseStub transportStub []
        {}).transportInvoked = false
    ∧ (createImage witConfig hmacStub jsonParseStub transportStub []
        {}).result =
      Except.error (.jsError "OG Pilot title is required")
    ∧ ∃ m, (createImage issuerConfig hmacStub jsonParseStub transportStub
        noTitleParams {}).result = Except.error (.configurationError m) := by
  have h := missing_title_never_calls_transport witConfig hmacStub
    jsonParseStub transportStub [] {} rfl
  have h2 := missing_title_never_calls_transport issuerConfig hmacStub
    jsonParseStub transportStub noTitleParams {} rfl
  have hno : ¬ ∃ p1 p2,
      applyIss issuerConfig (applyIat noTitleParams none) = Except.ok p1 ∧
      applySub issuerConfig p1 = Except.ok p2 ∧
      isMissingOrEmpty (getField p2 "iss") = false ∧
      isMissingOrEmpty (getField p2 "sub") = false := by
    rintro ⟨p1, p2, hp1, hp2, hio, -⟩
    have e1 : Except.ok noTitleParams = Except.ok p1 := hp1
    injection e1 with e1'
    subst e1'
    have e2 : Except.ok
        [("iss", JsValue.str ""), ("sub", JsValue.str "secret-k")] =
        Except.ok p2 := hp2
    injection e2 with e2'
    subst e2'
    rw [show isMissingOrEmpty (getField
        [("iss", JsValue.str ""), ("sub", JsValue.str "secret-k")] "iss") =
        true from rfl] at hio
    exact Bool.noConfusion hio
  exact ⟨h.1,
    h.2.2.1 [("iss", .str "example.com")]
      [("iss", .str "example.com"), ("sub", .str "secretke")]
      rfl rfl rfl rfl,
    h2.2.2.2 hno⟩

/-- A configuration with no secret. -/
def noKeyConfig : Configuration :=
  ⟨none, some "example.com", "https://ogpilot.com", some 5000, some 10000,
    true⟩

/-- Params supplying `iss` and `sub` directly (no title). -/
def issSubParams : Obj := [("iss", .str "d"), ("sub", .str "s")]

/-- C5 counterexample: with the secret absent but `title` also missing
(and `iss`/`sub` supplied by the caller so their defaulting never consults
the secret), `createImage` rejects with the VALIDATION-class title error,
not a configuration-class error — refuting the claim's "for all params and
options". -/
theorem missing_secret_claim_false :
    noKeyConfig.apiKey = none
    ∧ (createImage noKeyConfig hmacStub jsonParseStub transportStub
        issSubParams {}).result =
      Except.error (.jsError "OG Pilot title is required") :=
  ⟨rfl, rfl⟩

/-- C5 (amended): with the secret absent, `createImage` always fails before
the transport is invoked; the failure is a configuration-class error
whenever the `title` param is present and non-empty (when `title` is also
missing, the validation-class title error can be raised instead). -/
theorem missing_secret_never_calls_transport
    (c : Configuration) (hmac : String → String → List Nat)
    (jsonParse : String → Except String JsValue)
    (transport : UrlModel → FetchOutcome) (params : Obj)
    (opts : CreateImageOptions)
    (h : c.apiKey = none) :
    (createImage c hmac jsonParse transport params opts).transportInvoked
        = false
    ∧ (∃ e, (createImage c hmac jsonParse transport params opts).result =
        Except.error e)
    ∧ (isMissingOrEmpty (getField params "title") = false →
        ∃ m, (createImage c hmac jsonParse transport params opts).result =
          Except.error (.configurationError m)) := by
  cases hb : buildPayload c params opts.iat with
  | error e =>
      have hred : createImage c hmac jsonParse transport params opts =
          ⟨false, Except.error e⟩ := by
        unfold createImage buildUrl
        rw [hb]
      refine ⟨by rw [hred], ⟨e, by rw [hred]⟩, ?_⟩
      intro ht
      have hconf : ∃ m, e = .configurationError m := by
        unfold buildPayload at hb
        split at hb
        next e' h1 =>
          injection hb with h'
          subst h'
          exact ⟨_, applyIss_error_inv _ _ _ h1⟩
        next p1 h1 =>
          split at hb
          next e' h2 =>
            injection hb with h'
            subst h'
            exact ⟨_, applySub_error_inv _ _ _ h2⟩
          next p2 h2 =>
            split at hb
            next e' h3 =>
              injection hb with h'
              subst h'
              have htp : isMissingOrEmpty (getField p2 "title") = false := by
                rw [getField_title_preserved _ _ _ _ _ h1 h2]
                exact ht
              exact validatePayload_error_inv p2 _ htp h3
            next u h3 => simp at hb
      obtain ⟨m, rfl⟩ := hconf
      exact ⟨m, by rw [hred]⟩
  | ok p =>
      have hred : createImage c hmac jsonParse transport params opts =
          ⟨false, Except.error
            (.configurationError "OG Pilot API key is missing")⟩ := by
        unfold createImage buildUrl clientApiKey
        rw [hb, h]
      exact ⟨by rw [hred], ⟨_, by rw [hred]⟩, fun _ => ⟨_, by rw [hred]⟩⟩

/-- C5 witness: with the secret absent and well-formed params, the call
fails with the configuration-class missing-key error (raised while
defaulting `sub`) and never invokes the transport. -/
theorem missing_secret_witness :
    (createImage noKeyConfig hmacStub jsonParseStub transportStub
        [("title", JsValue.str "x")] {}).transportInvoked = false
    ∧ (createImage noKeyConfig hmacStub jsonParseStub transportStub
        [("title", JsValue.str "x")] {}).result =
      Except.error (.configurationError "OG Pilot API key is missing") := by
  have h := missing_secret_never_calls_transport noKeyConfig hmacStub
    jsonParseStub transportStub [("title", .str "x")] {} rfl
  exact ⟨h.1, rfl⟩

/-- C7: `normalizeIat` converts a Date to floor(epoch-millis/1000), a
numeric input strictly greater than 100,000,000,000 to floor(value/1000),
and any other numeric input to floor(value); `normalizeIatSpec` states those
three clauses in the claim's own words. -/
theorem iat_normalization_correct (i : IatInput) :
    normalizeIat i = normalizeIatSpec i := by
  cases i <;> rfl

/-- Configuration used to refute C3: an open-timeout of 0 is present, yet no
abort timer is armed because the combined value is not positive. -/
def zeroOpenTimeoutConfig : Configuration :=
  ⟨none, none, "https://ogpilot.com", some 0, none, true⟩

/-- C3 counterexample: the claim "no deadline is applied iff both components
are absent; whenever at least one is present a deadline is applied" fails at
a configuration whose open-timeout is explicitly 0 and whose read-timeout is
absent: a component is present, but `request` arms no timer since
`timeoutMs && timeoutMs > 0` is false at 0. -/
theorem timeout_iff_claim_false :
    ¬ (timerArmed zeroOpenTimeoutConfig = true ↔
        ¬(zeroOpenTimeoutConfig.openTimeoutMs = none ∧
          zeroOpenTimeoutConfig.readTimeoutMs = none)) := by
  have ht : totalTimeoutMs zeroOpenTimeoutConfig = some 0 := by
    show some ((0 : Rat) + 0) = some 0
    norm_num
  have harm : timerArmed zeroOpenTimeoutConfig = false := by
    rw [timerArmed, ht]
    simp
  intro hiff
  have h2 : ¬(zeroOpenTimeoutConfig.openTimeoutMs = none ∧
      zeroOpenTimeoutConfig.readTimeoutMs = none) := by
    simp [zeroOpenTimeoutConfig]
  have h3 := hiff.mpr h2
  rw [harm] at h3
  exact Bool.false_ne_true h3

/-- C3 (amended): the combined deadline is open-timeout plus read-timeout
with an absent component treated as 0; it is omitted exactly when both
components are absent; and the abort timer is armed iff the combined
deadline exists and is strictly positive — so a present-but-zero (or
negative) total also arms no timer. -/
theorem timeout_deadline_characterization (c : Configuration) :
    (totalTimeoutMs c = none ↔
      c.openTimeoutMs = none ∧ c.readTimeoutMs = none)
    ∧ (∀ t, totalTimeoutMs c = some t →
        t = c.openTimeoutMs.getD 0 + c.readTimeoutMs.getD 0)
    ∧ (timerArmed c = true ↔ ∃ t, totalTimeoutMs c = some t ∧ 0 < t) := by
  refine ⟨?_, ?_, ?_⟩
  · cases ho : c.openTimeoutMs <;> cases hr : c.readTimeoutMs <;>
      simp [totalTimeoutMs, ho, hr]
  · intro t ht
    cases ho : c.openTimeoutMs <;> cases hr : c.readTimeoutMs <;>
      (rw [totalTimeoutMs, ho, hr] at ht; simp_all)
  · rw [timerArmed]
    cases ht : totalTimeoutMs c with
    | none => simp
    | some t =>
        simp only [Bool.and_eq_true, bne_iff_ne, ne_eq, decide_eq_true_eq]
        constructor
        · rintro ⟨-, hpos⟩
          exact ⟨t, rfl, hpos⟩
        · rintro ⟨t', ht', hpos⟩
          obtain rfl : t = t' := Option.some_injective _ ht'
          exact ⟨ne_of_gt hpos, hpos⟩

/-- C3 witness: the amended characterization evaluated at the default
configuration values (open 5000ms, read 10000ms). -/
theorem timeout_deadline_characterization_witness :
    (totalTimeoutMs ⟨none, none, "https://ogpilot.com", some 5000,
          some 10000, true⟩ = none ↔
      (⟨none, none, "https://ogpilot.com", some 5000, some 10000, true⟩ :
          Configuration).openTimeoutMs = none ∧
      (⟨none, none, "https://ogpilot.com", some 5000, some 10000, true⟩ :
          Configuration).readTimeoutMs = none)
    ∧ (∀ t, totalTimeoutMs ⟨none, none, "https://ogpilot.com", some 5000,
          some 10000, true⟩ = some t →
        t = (⟨none, none, "https://ogpilot.com", some 5000, some 10000,
            true⟩ : Configuration).openTimeoutMs.getD 0 +
          (⟨none, none, "https://ogpilot.com", some 5000, some 10000,
            true⟩ : Configuration).readTimeoutMs.getD 0)
    ∧ (timerArmed ⟨none, none, "https://ogpilot.com", some 5000, some 10000,
          true⟩ = true ↔
        ∃ t, totalTimeoutMs ⟨none, none, "https://ogpilot.com", some 5000,
            some 10000, true⟩ = some t ∧ 0 < t) :=
  timeout_deadline_characterization _

/-- C8: every successfully built request URL keeps the configured origin,
has the fixed path `/api/v1/images`, and carries exactly one query
parameter, `token`, holding the signed token; nothing else is ever added to
the query. -/
theorem request_url_shape (c : Configuration)
    (hmac : String → String → List Nat) (params : Obj)
    (iat : Option IatInput) (u : UrlModel) (p : Obj) (k : String)
    (hp : buildPayload c params iat = Except.ok p)
    (hk : clientApiKey c = Except.ok k)
    (h : buildUrl c hmac params iat = Except.ok u) :
    u.base = c.baseUrl ∧ u.path = "/api/v1/images"
    ∧ u.query = [("token", signJwt hmac p k)] := by
  unfold buildUrl at h
  simp only [hp, hk] at h
  obtain rfl := Except.ok.inj h
  exact ⟨rfl, rfl, rfl⟩

/-- The URL built from the witness configuration and params. -/
def witUrl : UrlModel :=
  ⟨"https://ogpilot.com", "/api/v1/images",
    [("token", signJwt hmacStub witPayload "secretkey0123")]⟩

/-- C8 witness: the URL shape theorem evaluated at the concrete witness
configuration and title-only params. -/
theorem request_url_shape_witness :
    witUrl.base = witConfig.baseUrl ∧ witUrl.path = "/api/v1/images"
    ∧ witUrl.query = [("token", signJwt hmacStub witPayload
        "secretkey0123")] :=
  request_url_shape witConfig hmacStub witParams none witUrl witPayload
    "secretkey0123" rfl rfl rfl

/-- C9: with the `json` option false and a response below status 400,
`createImage` resolves, in priority order, to the `Location` header when
present, else the response URL when present, else the string form of the
originally constructed request URL. -/
theorem redirect_location_priority (c : Configuration)
    (hmac : String → String → List Nat)
    (jsonParse : String → Except String JsValue)
    (transport : UrlModel → FetchOutcome) (params : Obj)
    (opts : CreateImageOptions) (u : UrlModel) (resp : FetchResponse)
    (hjson : opts.json = false)
    (hurl : buildUrl c hmac params opts.iat = Except.ok u)
    (htr : transport u = FetchOutcome.ok resp)
    (hst : resp.status < 400) :
    (createImage c hmac jsonParse transport params opts).result =
      Except.ok (.str (resp.location.getD (resp.url.getD
        (urlToString u)))) := by
  have hreq : requestClassify (.ok resp) = .ok resp := by
    have hlt : ¬ 400 ≤ resp.status := Nat.not_le.mpr hst
    simp [requestClassify, tryFetch, hlt]
  unfold createImage
  simp only [hurl, htr, hreq]
  unfold finishResponse
  rw [hjson]
  simp

/-- The 302 redirect response of the spec's example. -/
def redirectResp : FetchResponse :=
  ⟨302, .ok "", some "https://example.com/img.png", none⟩

/-- A transport stub resolving with the 302 redirect response. -/
def redirectTransport : UrlModel → FetchOutcome := fun _ => .ok redirectResp

/-- C9 witness: the spec's example — a 302 with a `Location` header makes
`createImage` resolve to that header value. -/
theorem redirect_location_priority_witness :
    (createImage witConfig hmacStub jsonParseStub redirectTransport
        witParams {}).result =
      Except.ok (.str "https://example.com/img.png") :=
  redirect_location_priority witConfig hmacStub jsonParseStub
    redirectTransport witParams {} witUrl redirectResp rfl rfl rfl
    (by decide)

/-- C2: the signed token is the base64url (no padding) encoding of the
JSON-serialized fixed header, a dot, the base64url (no padding) encoding of
the JSON-serialized claims, a dot, and the base64url (no padding) encoding
of the HMAC-SHA256 bytes computed over the signing input keyed by the
secret; moreover that signing input `<encoded-header>.<encoded-claims>` is
pure ASCII. -/
theorem signed_token_structure (hmac : String → String → List Nat)
    (payload : Obj) (secret : String) :
    signJwt hmac payload secret =
      String.mk (base64UrlNoPadChars (utf8Encode
          (jsonStringifyObj jwtHeader)))
        ++ "." ++
      String.mk (base64UrlNoPadChars (utf8Encode
          (jsonStringifyObj payload)))
        ++ "." ++
      String.mk (base64UrlNoPadChars (hmac
        (String.mk (base64UrlNoPadChars (utf8Encode
            (jsonStringifyObj jwtHeader)))
          ++ "." ++
         String.mk (base64UrlNoPadChars (utf8Encode
            (jsonStringifyObj payload))))
        secret))
    ∧ ∀ ch ∈ (String.mk (base64UrlNoPadChars (utf8Encode
          (jsonStringifyObj jwtHeader)))
        ++ "." ++
        String.mk (base64UrlNoPadChars (utf8Encode
          (jsonStringifyObj payload)))).data,
        ch.toNat < 128 := by
  constructor
  · simp only [signJwt, base64UrlEncodeString, base64UrlEncodeBytes_eq_noPad]
  · intro ch hch
    simp only [String.data_append, List.mem_append] at hch
    rcases hch with (hch | hch) | hch
    · exact base64UrlNoPadChars_ascii _ ch hch
    · have : ch = '.' := by simpa using hch
      subst this
      decide
    · exact base64UrlNoPadChars_ascii _ ch hch

/-- C2 witness: the structural equation at a concrete HMAC stand-in,
payload and secret, together with a fully evaluated token for the payload
`\x7b"title":"x"\x7d` and HMAC bytes `[1, 2, 3]` (signature segment
`AQID`). -/
theorem signed_token_structure_witness :
    signJwt (fun _ _ => [1, 2, 3]) [("title", JsValue.str "x")] "k" =
      String.mk (base64UrlNoPadChars (utf8Encode
          (jsonStringifyObj jwtHeader)))
        ++ "." ++
      String.mk (base64UrlNoPadChars (utf8Encode
          (jsonStringifyObj [("title", JsValue.str "x")])))
        ++ "." ++
      String.mk (base64UrlNoPadChars ((fun _ _ => [1, 2, 3] :
          String → String → List Nat)
        (String.mk (base64UrlNoPadChars (utf8Encode
            (jsonStringifyObj jwtHeader)))
          ++ "." ++
         String.mk (base64UrlNoPadChars (utf8Encode
            (jsonStringifyObj [("title", JsValue.str "x")]))))
        "k"))
    ∧ signJwt (fun _ _ => [1, 2, 3]) [("title", JsValue.str "x")] "k" =
      "eyJhbGciOiJIUzI1NiIsInR5cCI6IkpXVCJ9.eyJ0aXRsZSI6IngifQ.AQID" :=
  ⟨(signed_token_structure (fun _ _ => [1, 2, 3])
      [("title", JsValue.str "x")] "k").1, rfl⟩

/-- C10: the caller's params object is never mutated by `createImage`: the
claims mapping is built on a fresh shallow copy, so every pre-existing
object in the store — in particular the params object — is unchanged after
the call, on success and on every error path. -/
theorem params_never_mutated (c : Configuration)
    (hmac : String → String → List Nat)
    (jsonParse : String → Except String JsValue)
    (transport : UrlModel → FetchOutcome) (s : Store) (r : Ref)
    (opts : CreateImageOptions) (h : r < s.length) :
    readObj (createImageS c hmac jsonParse transport s r opts).1 r =
      readObj s r := by
  rw [createImageS_fst]
  exact buildPayloadS_frame c s r opts.iat r h

/-- C10 witness: a concrete one-object store is unchanged by a full
`createImage` run. -/
theorem params_never_mutated_witness :
    readObj (createImageS witConfig hmacStub jsonParseStub transportStub
        [witParams] 0 {}).1 0 = readObj [witParams] 0 :=
  params_never_mutated witConfig hmacStub jsonParseStub transportStub
    [witParams] 0 {} (by decide)

/-- C6: response classification of `Client#request` — a status of at least
400 rejects with a `RequestError` whose message carries the decimal status
and the body text; a failed body read degrades to the empty string; an abort
becomes the timeout variant of `RequestError`; other thrown errors and
non-error throws are wrapped as `RequestError`; and a `RequestError` thrown
by the status check passes through the catch unchanged. -/
theorem response_classification :
    (∀ resp : FetchResponse, 400 ≤ resp.status →
      requestClassify (.ok resp) =
        .error (.requestError
          ("OG Pilot request failed with status " ++ toString resp.status ++
            ": " ++ bodyTextOrEmpty resp)
          (some resp.status)))
    ∧ (∀ resp : FetchResponse, ∀ e, resp.bodyRead = .error e →
        bodyTextOrEmpty resp = "")
    ∧ (∀ m, requestClassify (.threw (.abortError m)) =
        .error (.requestError ("OG Pilot request timed out: " ++ m) none))
    ∧ (∀ m, requestClassify (.threw (.otherError m)) =
        .error (.requestError ("OG Pilot request failed: " ++ m) none))
    ∧ (requestClassify (.threw .nonError) =
        .error (.requestError "OG Pilot request failed." none))
    ∧ (∀ m s, requestClassify (.threw (.requestError m s)) =
        .error (.requestError m s)) := by
  refine ⟨?_, ?_, ?_, ?_, rfl, ?_⟩
  · intro resp h
    simp [requestClassify, tryFetch, h, catchClassify]
  · intro resp e h
    simp [bodyTextOrEmpty, h]
  · intro m; rfl
  · intro m; rfl
  · intro m s; rfl

/-- C6 witness: the spec's own example — status 500 with body "boom" rejects
with a request error carrying "500" and "boom" in its message. -/
theorem response_classification_witness :
    requestClassify (.ok ⟨500, .ok "boom", none, none⟩) =
      .error (.requestError "OG Pilot request failed with status 500: boom"
        (some 500)) :=
  response_classification.1 ⟨500, .ok "boom", none, none⟩ (by decide)

end OgPilot
